import Mathlib

/-!
Verification of the majorityredis distributed locking primitives.

This file gives a shallow embedding of the two source modules
`lock.py` and `lockingqueue.py`: the Lua scripts they send to each
Redis node (embedded as pure state transformers over a single node's
keyspace, following the semantics of Redis scripting, in which the
nil bulk reply of GET on a missing key surfaces in Lua as the boolean
false), and the client-side driver methods that fan scripts out over
the node ensemble and count successes against the majority threshold.

The helper module `util.py` and the base class module are part of the
repository but are not available; the fan-out executor, the
expiry/validity helper and the client configuration fields are
modelled from the specification (sections 4.1 to 4.3 and 6), each such
definition carrying a doc comment saying so.

Machine integers do not overflow here (Python ints are unbounded and
Redis scores are doubles, modelled as rationals), times are rationals,
and every fallible operation returns an explicit result value.
-/

namespace MajorityRedis

/-- Keyspace of a single Redis node: string values, per-key absolute
expiry timestamps, and sorted sets given as member/score association
lists. -/
structure NodeState where
  kv : String → Option String
  expiry : String → Option ℚ
  zset : String → List (String × ℚ)

/-- A node with an empty keyspace. -/
def emptyState : NodeState :=
  { kv := fun _ => none, expiry := fun _ => none, zset := fun _ => [] }

def NodeState.kvSet (s : NodeState) (k v : String) : NodeState :=
  { s with kv := fun x => if x = k then some v else s.kv x }

def NodeState.exSet (s : NodeState) (k : String) (t : Option ℚ) : NodeState :=
  { s with expiry := fun x => if x = k then t else s.expiry x }

def NodeState.zsetSet (s : NodeState) (q : String) (l : List (String × ℚ)) : NodeState :=
  { s with zset := fun x => if x = q then l else s.zset x }

def NodeState.kvDel (s : NodeState) (k : String) : NodeState :=
  { s with kv := fun x => if x = k then none else s.kv x,
           expiry := fun x => if x = k then none else s.expiry x }

/-- GET: the stored string, or none for a missing key.  Redis returns
the nil bulk reply for a missing key, which the Lua bridge converts to
the Lua boolean false. -/
def getCmd (s : NodeState) (k : String) : Option String := s.kv k

/-- The Lua comparison of a redis.call GET result against nil.  The
result of GET is either a Lua string or the Lua boolean false (for a
missing key), and neither equals nil, so this test is always false. -/
def getResultIsNil (_ : Option String) : Bool := false

/-- SETNX: set the value if the key is absent; 1 if set, 0 otherwise. -/
def setnxCmd (s : NodeState) (k v : String) : NodeState × Int :=
  match s.kv k with
  | some _ => (s, 0)
  | none => (s.kvSet k v, 1)

/-- EXPIREAT: set the absolute expiry if the key exists; 1 on success,
0 for a missing key. -/
def expireatCmd (s : NodeState) (k : String) (t : ℚ) : NodeState × Int :=
  match s.kv k with
  | some _ => (s.exSet k (some t), 1)
  | none => (s, 0)

/-- DEL: remove the key and its expiry; returns the number removed. -/
def delCmd (s : NodeState) (k : String) : NodeState × Int :=
  match s.kv k with
  | some _ => (s.kvDel k, 1)
  | none => (s, 0)

/-- SET: store a value; a plain SET also discards any expiry. -/
def setCmd (s : NodeState) (k v : String) : NodeState :=
  (s.kvSet k v).exSet k none

/-- PERSIST: discard the expiry of a key. -/
def persistCmd (s : NodeState) (k : String) : NodeState :=
  s.exSet k none

/-- ZSCORE on an association list. -/
def zscoreList (l : List (String × ℚ)) (m : String) : Option ℚ :=
  (l.find? (fun p => p.1 = m)).map (fun p => p.2)

/-- ZINCRBY on an association list: add to an existing member, or add
the member with the increment as its score. -/
def zincrList : List (String × ℚ) → String → ℚ → List (String × ℚ)
  | [], m, d => [(m, d)]
  | p :: t, m, d => if p.1 = m then (m, p.2 + d) :: t else p :: zincrList t m d

/-- ZREM on an association list. -/
def zremList (l : List (String × ℚ)) (m : String) : List (String × ℚ) :=
  l.filter (fun p => p.1 ≠ m)

/-- Ordering used by ZRANGE: by score, ties broken by member string. -/
def zbefore (p q : String × ℚ) : Bool :=
  p.2 < q.2 || (p.2 = q.2 && p.1 < q.1)

/-- ZRANGE key 0 0: the least member of the sorted set, if any. -/
def zminList : List (String × ℚ) → Option (String × ℚ)
  | [] => none
  | p :: t =>
    match zminList t with
    | none => some p
    | some q => if zbefore q p then some q else some p

def zincrbyCmd (s : NodeState) (q : String) (d : ℚ) (m : String) : NodeState :=
  s.zsetSet q (zincrList (s.zset q) m d)

def zremCmd (s : NodeState) (q m : String) : NodeState :=
  s.zsetSet q (zremList (s.zset q) m)

/-- Result of one atomic script execution on one node: an integer
reply, a bulk string reply, or an error reply. -/
inductive SRes where
  | int : Int → SRes
  | str : String → SRes
  | err : String → SRes
deriving DecidableEq

/-- Script l_lock from lock.py: SETNX the client id at the path, then
EXPIREAT; 1 when the lock is taken, 0 when the key already exists. -/
def l_lock (s : NodeState) (path client_id : String) (expireat : ℚ) : NodeState × SRes :=
  match setnxCmd s path client_id with
  | (s1, r1) =>
    if r1 = 1 then
      match expireatCmd s1 path expireat with
      | (s2, r2) => if r2 = 1 then (s2, .int 1) else (s2, .err "invalid expireat")
    else (s1, .int 0)

/-- Script l_unlock from lock.py: DEL when the stored value equals the
client id; the rv == nil branch compares the GET result (a string or
the Lua false) against nil and can never fire; otherwise 0. -/
def l_unlock (s : NodeState) (path client_id : String) : NodeState × SRes :=
  let rv := getCmd s path
  if rv = some client_id then
    match delCmd s path with
    | (s1, d) => (s1, .int d)
  else if getResultIsNil rv then (s, .int 1)
  else (s, .int 0)

/-- Script l_extend_lock from lock.py: refresh the expiry when the
stored value equals the client id, returning the EXPIREAT reply;
otherwise 0. -/
def l_extend_lock (s : NodeState) (path : String) (expireat : ℚ) (client_id : String) :
    NodeState × SRes :=
  if some client_id = getCmd s path then
    match expireatCmd s path expireat with
    | (s1, r) => (s1, .int r)
  else (s, .int 0)

/-- Script lq_get from lockingqueue.py: read the least member of Q,
lock it speculatively with SETNX, set its expiry, bump its score, and
return the handle; errors for an empty queue, an already locked head,
or a failing EXPIREAT. -/
def lq_get (s : NodeState) (Q client_id : String) (expireat : ℚ) : NodeState × SRes :=
  match zminList (s.zset Q) with
  | none => (s, .err "queue empty")
  | some hp =>
    let h_k := hp.1
    match setnxCmd s h_k client_id with
    | (s1, r1) =>
      if r1 ≠ 1 then (s1, .err "already locked")
      else
        match expireatCmd s1 h_k expireat with
        | (s2, r2) =>
          if r2 ≠ 1 then (s2, .err "invalid expireat")
          else (zincrbyCmd s2 Q 1 h_k, .str h_k)

/-- Script lq_lock from lockingqueue.py.  The PRNG is modelled by the
parameter rand, mapping the caller-supplied seed and the upper bound
of math.random to the drawn integer.  On a failed SETNX against the
completed tombstone the handle is removed from Q; against a live lock
the score is decayed by ZINCRBY of (num-1)/score whenever num is not
1.  A missing score would make math.floor raise inside Lua, surfacing
as a script error. -/
def lq_lock (rand : Int → Int → Int) (s : NodeState) (h_k Q : String)
    (expireat : ℚ) (randint : Int) (client_id : String) : NodeState × SRes :=
  match setnxCmd s h_k client_id with
  | (s1, r1) =>
    if r1 = 0 then
      if getCmd s1 h_k = some "completed" then
        (zremCmd s1 Q h_k, .err "already completed")
      else
        match zscoreList (s1.zset Q) h_k with
        | none => (s1, .err "attempt to perform arithmetic on a boolean value")
        | some score =>
          let num := rand randint (⌊score⌋ + 1)
          if num ≠ 1 then
            (zincrbyCmd s1 Q (((num : ℚ) - 1) / score) h_k, .err "already locked")
          else (s1, .err "already locked")
    else
      match expireatCmd s1 h_k expireat with
      | (s2, _) => (zincrbyCmd s2 Q 1 h_k, .int 1)

/-- Script lq_extend_lock from lockingqueue.py: refresh the expiry for
the owner, error with already completed on the tombstone, and error
with expired otherwise. -/
def lq_extend_lock (s : NodeState) (h_k : String) (expireat : ℚ) (client_id : String) :
    NodeState × SRes :=
  let rv := getCmd s h_k
  if some client_id = rv then
    match expireatCmd s h_k expireat with
    | (s1, _) => (s1, .int 1)
  else if rv = some "completed" then (s, .err "already completed")
  else (s, .err "expired")

/-- Script lq_consume from lockingqueue.py: when the stored value is
the caller or the tombstone, re-assert the tombstone, PERSIST away any
expiry, remove the handle from Q and return 1; otherwise 0. -/
def lq_consume (s : NodeState) (h_k Q client_id : String) : NodeState × SRes :=
  let rv := getCmd s h_k
  if rv = some client_id ∨ rv = some "completed" then
    (zremCmd (persistCmd (setCmd s h_k "completed") h_k) Q h_k, .int 1)
  else (s, .int 0)

/-- Script lq_unlock from lockingqueue.py: DEL when the stored value
equals the client id, otherwise 0. -/
def lq_unlock (s : NodeState) (h_k client_id : String) : NodeState × SRes :=
  if some client_id = getCmd s h_k then
    match delCmd s h_k with
    | (s1, d) => (s1, .int d)
  else (s, .int 0)

/-- Decimal digit character for a digit below ten. -/
def digitChar (d : Nat) : Char :=
  ['0', '1', '2', '3', '4', '5', '6', '7', '8', '9'].getD d '0'

/-- Decimal digits of a natural number, most significant first; fuel
recursion with enough fuel to terminate. -/
def natDecAux : Nat → Nat → List Char
  | _, 0 => []
  | n, fuel + 1 =>
    if n < 10 then [digitChar n] else natDecAux (n / 10) fuel ++ [digitChar (n % 10)]

/-- Decimal rendering of a natural number, as Python str does. -/
def natDecimal (n : Nat) : String := String.mk (natDecAux n (n + 1))

/-- Decimal rendering of an integer, as the Python percent-d format. -/
def intDecimal : Int → String
  | .ofNat n => natDecimal n
  | .negSucc n => "-" ++ natDecimal (n + 1)

/-- Fractional part of the percent-f format: six digits, zero padded. -/
def pad6 (m : Nat) : List Char :=
  List.replicate (6 - (natDecAux m (m + 1)).length) '0' ++ natDecAux m (m + 1)

/-- Python percent-f rendering of a wall-clock instant, with the time
modelled in whole microseconds: integer seconds, a dot, and six
fractional digits. -/
def formatTime (usec : Nat) : String :=
  natDecimal (usec / 1000000) ++ "." ++ String.mk (pad6 (usec % 1000000))

/-- Handle built by LockingQueue.put: "%d:%f:%s" of the priority, the
insertion wall time and the item payload. -/
def put_handle (priority : Int) (usec : Nat) (item : String) : String :=
  intDecimal priority ++ ":" ++ formatTime usec ++ ":" ++ item

/-- Python str.split on a colon with maxsplit 2, on character lists:
at most the first two colons separate. -/
def splitColon2 (l : List Char) : List (List Char) :=
  let a := l.takeWhile (fun ch => ch ≠ ':')
  match l.dropWhile (fun ch => ch ≠ ':') with
  | [] => [a]
  | _ :: r1 =>
    let b := r1.takeWhile (fun ch => ch ≠ ':')
    match r1.dropWhile (fun ch => ch ≠ ':') with
    | [] => [a, b]
    | _ :: r3 => [a, b, r3]

/-- Python h_k.split with separator colon and maxsplit 2, on strings. -/
def pySplitColon2 (s : String) : List String :=
  (splitColon2 s.data).map String.mk

/-- Unpacking step of LockingQueue.get: split the handle on the first
two colons into priority, insert time and item, and return the
(item, h_k) pair the method returns; none models the unpacking
ValueError when fewer than three parts come back. -/
def get_unpack (h_k : String) : Option (String × String) :=
  match pySplitColon2 h_k with
  | [_, _, item] => some (item, h_k)
  | _ => none

/-- Result of a script invocation as the Python client sees it: error
replies and connection failures both surface as captured exceptions. -/
inductive PyRes where
  | int : Int → PyRes
  | str : String → PyRes
  | exc : String → PyRes
deriving DecidableEq

def SRes.toPy : SRes → PyRes
  | .int n => .int n
  | .str v => .str v
  | .err m => .exc m

/-- Python percent-s stringification of a per-node outcome, as used by
_verify_not_already_completed; an exception renders as its message. -/
def PyRes.toStr : PyRes → String
  | .int n => intDecimal n
  | .str v => v
  | .exc m => m

/-- A node of the ensemble: an identity, its keyspace, and whether it
is reachable during the call being modelled. -/
structure Node where
  nid : Nat
  st : NodeState
  reachable : Bool

/-- Modelled from the spec: the fan-out executor and script invoker
of util.py (sections 4.2 and 4.3), which are not under src/.  One
script runs atomically on one node; a per-node failure is captured as
an exception outcome and the node is untouched. -/
def applyScript (f : NodeState → NodeState × SRes) (n : Node) : Node × PyRes :=
  if n.reachable then
    match f n.st with
    | (s1, r) => ({ n with st := s1 }, r.toPy)
  else (n, .exc "connection error")

/-- Modelled from the spec: util.run_script (section 4.3) dispatches
the script to every node and yields node/outcome pairs in completion
order; the input list order stands for the completion order. -/
def fanout (f : NodeState → NodeState × SRes) (nodes : List Node) :
    List Node × List (Nat × PyRes) :=
  (nodes.map (fun n => (applyScript f n).1),
   nodes.map (fun n => (n.nid, (applyScript f n).2)))

/-- Modelled from the spec: a fan-out round restricted to a chosen
subset of the ensemble, the others left untouched. -/
def fanoutOn (targets : List Nat) (f : NodeState → NodeState × SRes)
    (nodes : List Node) : List Node :=
  nodes.map (fun n => if targets.contains n.nid then (applyScript f n).1 else n)

/-- Count of non-error responses equal to the integer 1, the success
count the drivers compare against the majority threshold. -/
def countOnes (rs : List (Nat × PyRes)) : Nat :=
  (rs.filter (fun p => p.2 = PyRes.int 1)).length

/-- Modelled from the spec: util.lock_still_valid (section 4.1), true
iff now plus the polling interval plus the clock drift is before the
expiry. -/
def lock_still_valid (t_expireat clock_drift polling_interval now : ℚ) : Bool :=
  now + polling_interval + clock_drift < t_expireat

/-- Modelled from the spec: util.get_expireat (section 4.1), the start
instant paired with the absolute expiry one timeout later. -/
def get_expireat (timeout t_start : ℚ) : ℚ × ℚ := (t_start, t_start + timeout)

/-- Modelled from the spec: the client configuration held by the base
class (section 6), which is not under src/: the stringified random
client id the scripts receive, the lease timeout, the polling interval
(timeout over five), the clock drift bound, and the ensemble size. -/
structure Cfg where
  client_id : String
  timeout : ℚ
  polling_interval : ℚ
  clock_drift : ℚ
  n_servers : Nat

/-- Majority threshold: floor of half the ensemble plus one. -/
def Cfg.majority (c : Cfg) : Nat := c.n_servers / 2 + 1

/-- Names of the scripts a driver dispatches, for recording which
fan-out rounds a call performs. -/
inductive ScriptName where
  | lLock | lUnlock | lExtendLock | lqGet | lqLock | lqExtendLock | lqConsume | lqUnlock
deriving DecidableEq

/-- Return value of Lock.lock: the Python function returns False on
failure, t_expireat when a background extender is armed, and falls off
the end (returning None) otherwise. -/
inductive LockRet where
  | noneRet : LockRet
  | falseRet : LockRet
  | expAt : ℚ → LockRet
deriving DecidableEq

/-- Method Lock.unlock from lock.py: fan out l_unlock and return the
fraction of non-error 1 responses over the ensemble size. -/
def Lock.unlock (c : Cfg) (path : String) (nodes : List Node) : ℚ × List Node :=
  match fanout (fun s => l_unlock s path c.client_id) nodes with
  | (nodes1, rv) => ((countOnes rv : ℚ) / (c.n_servers : ℚ), nodes1)

/-- Method Lock.lock from lock.py.  The two rational instants are the
wall clock at get_expireat and at the lock_still_valid check; the
returned list of script names records the fan-out rounds performed. -/
def Lock.lock (c : Cfg) (path : String) (extend : Bool) (nodes : List Node)
    (t0 t1 : ℚ) : LockRet × List Node × List ScriptName :=
  let texp := (get_expireat c.timeout t0).2
  match fanout (fun s => l_lock s path c.client_id texp) nodes with
  | (nodes1, rv) =>
    let n := countOnes rv
    if n < c.majority then
      match Lock.unlock c path nodes1 with
      | (_, nodes2) => (.falseRet, nodes2, [.lLock, .lUnlock])
    else if lock_still_valid texp c.clock_drift c.polling_interval t1 = false then
      (.falseRet, nodes1, [.lLock])
    else if extend then (.expAt texp, nodes1, [.lLock])
    else (.noneRet, nodes1, [.lLock])

/-- Method Lock.extend_lock from lock.py: fan out l_extend_lock,
return False below the majority threshold, otherwise re-run l_lock on
all nodes when a first lock_still_valid check (at instant t1) passes,
and return the result of a second lock_still_valid check (at t2). -/
def Lock.extend_lock (c : Cfg) (path : String) (nodes : List Node)
    (t0 t1 t2 : ℚ) : Bool × List Node × List ScriptName :=
  let texp := (get_expireat c.timeout t0).2
  match fanout (fun s => l_extend_lock s path texp c.client_id) nodes with
  | (nodes1, locks) =>
    if countOnes locks < c.majority then (false, nodes1, [.lExtendLock])
    else if lock_still_valid texp c.clock_drift c.polling_interval t1 then
      match fanout (fun s => l_lock s path c.client_id texp) nodes1 with
      | (nodes2, _) =>
        (lock_still_valid texp c.clock_drift c.polling_interval t2, nodes2,
         [.lExtendLock, .lLock])
    else
      (lock_still_valid texp c.clock_drift c.polling_interval t2, nodes1,
       [.lExtendLock])

/-- The any-of test of _verify_not_already_completed: whether some
outcome of the round stringifies to already completed. -/
def anyCompleted (locks : List (Nat × PyRes)) : Bool :=
  (locks.map (fun p => decide (p.2.toStr = "already completed"))).any id

/-- Helper _verify_not_already_completed from lockingqueue.py: when
any outcome stringifies to already completed, run lq_consume on every
node whose outcome did not, and report failure. -/
def LockingQueue.verify_not_completed (c : Cfg) (Q h_k : String)
    (locks : List (Nat × PyRes)) (nodes : List Node) :
    Bool × List Node × List (ScriptName × Nat) :=
  if anyCompleted locks then
    let outdated := (locks.filter (fun p => decide (p.2.toStr ≠ "already completed"))).map
      (fun p => p.1)
    (false, fanoutOn outdated (fun s => lq_consume s h_k Q c.client_id) nodes,
     outdated.map (fun i => (ScriptName.lqConsume, i)))
  else (true, nodes, [])

/-- Helper _have_majority from lockingqueue.py: below the majority
threshold, run lq_unlock on the nodes whose outcome was 1 and report
failure. -/
def LockingQueue.have_majority (c : Cfg) (h_k : String)
    (locks : List (Nat × PyRes)) (nodes : List Node) :
    Bool × List Node × List (ScriptName × Nat) :=
  if countOnes locks < c.majority then
    let ones := (locks.filter (fun p => p.2 = PyRes.int 1)).map (fun p => p.1)
    (false, fanoutOn ones (fun s => lq_unlock s h_k c.client_id) nodes,
     ones.map (fun i => (ScriptName.lqUnlock, i)))
  else (true, nodes, [])

/-- Return value of LockingQueue.extend_lock: the sentinel -1 for an
item completed elsewhere, 0 for a lost majority, and otherwise the
value of lock_still_valid. -/
inductive LQExtRet where
  | completedRet : LQExtRet
  | zeroRet : LQExtRet
  | validRet : Bool → LQExtRet
deriving DecidableEq

/-- Method LockingQueue.extend_lock from lockingqueue.py. -/
def LockingQueue.extend_lock (c : Cfg) (Q h_k : String) (nodes : List Node)
    (t0 t1 : ℚ) : LQExtRet × List Node × List (ScriptName × Nat) :=
  let texp := (get_expireat c.timeout t0).2
  match fanout (fun s => lq_extend_lock s h_k texp c.client_id) nodes with
  | (nodes1, locks) =>
    match LockingQueue.verify_not_completed c Q h_k locks nodes1 with
    | (false, nodes2, ops1) => (.completedRet, nodes2, ops1)
    | (true, nodes2, _) =>
      match LockingQueue.have_majority c h_k locks nodes2 with
      | (false, nodes3, ops2) => (.zeroRet, nodes3, ops2)
      | (true, nodes3, _) =>
        (.validRet (lock_still_valid texp c.clock_drift c.polling_interval t1),
         nodes3, [])

/-- Sum of the integer outcomes over the non-exception responses, as
LockingQueue.consume computes its success count; lq_consume replies
are always integers. -/
def sumNonExc (rs : List (Nat × PyRes)) : Int :=
  (rs.filterMap (fun p => match p.2 with | PyRes.int n => some n | _ => none)).sum

/-- Method LockingQueue.consume from lockingqueue.py: fan out
lq_consume; raise the consume error when the success sum is zero,
otherwise return one hundred times the successes over the ensemble
size. -/
def LockingQueue.consume (c : Cfg) (Q h_k : String) (nodes : List Node) :
    Except String ℚ × List Node :=
  match fanout (fun s => lq_consume s h_k Q c.client_id) nodes with
  | (nodes1, rs) =>
    let n_success := sumNonExc rs
    if n_success = 0 then
      (.error "Failed to mark the item as completed on any redis server", nodes1)
    else (.ok (100 * (n_success : ℚ) / (c.n_servers : ℚ)), nodes1)

/-- Scan of the lq_get outcome stream by _get_candidate_keys: the
errors consumed before the first success, the winner (the first
success, kept with its outcome), and the node ids not yet consumed
from the stream when the loop breaks. -/
def scanGet : List (Nat × PyRes) → List Nat × Option (Nat × PyRes) × List Nat
  | [] => ([], none, [])
  | (i, PyRes.exc _) :: t =>
    match scanGet t with
    | (f, w, rest) => (i :: f, w, rest)
  | (i, PyRes.int k) :: t => ([], some (i, PyRes.int k), t.map (fun p => p.1))
  | (i, PyRes.str v) :: t => ([], some (i, PyRes.str v), t.map (fun p => p.1))

/-- Method _get_candidate_keys from lockingqueue.py: fan out lq_get
over the queried subset (every invocation is dispatched), take the
first successful response as the winner, then issue lq_unlock with the
winner candidate handle to the not-yet-consumed nodes followed by the
failed ones.  When no response succeeds, the loop variable left over
from the scan, an exception, is what gets stringified as the unlock
argument. -/
def LockingQueue.get_candidate_keys (c : Cfg) (Q : String) (texp : ℚ)
    (nodes : List Node) :
    Option (Nat × String) × List Node × List (ScriptName × Nat × String) :=
  let nodes1 := (fanout (fun s => lq_get s Q c.client_id texp) nodes).1
  let rs := (fanout (fun s => lq_get s Q c.client_id texp) nodes).2
  match scanGet rs with
  | (failed, some (wid, wr), rest) =>
    let whk := wr.toStr
    let targets := rest ++ failed
    (some (wid, whk),
     fanoutOn targets (fun s => lq_unlock s whk c.client_id) nodes1,
     targets.map (fun i => (ScriptName.lqUnlock, i, whk)))
  | (failed, none, _) =>
    let whk := (rs.getLast?).elim "" (fun p => p.2.toStr)
    (none,
     fanoutOn failed (fun s => lq_unlock s whk c.client_id) nodes1,
     failed.map (fun i => (ScriptName.lqUnlock, i, whk)))

/-- One script invocation with its arguments, for stating the
tombstone invariant uniformly over every script of the registry that
can run against a key. -/
inductive Script where
  | sLLock (path client_id : String) (expireat : ℚ)
  | sLUnlock (path client_id : String)
  | sLExtendLock (path : String) (expireat : ℚ) (client_id : String)
  | sLqGet (Q client_id : String) (expireat : ℚ)
  | sLqLock (h_k Q : String) (expireat : ℚ) (randint : Int) (client_id : String)
  | sLqExtendLock (h_k : String) (expireat : ℚ) (client_id : String)
  | sLqConsume (h_k Q client_id : String)
  | sLqUnlock (h_k client_id : String)

/-- The client identity argument carried by a script invocation. -/
def Script.cid : Script → String
  | .sLLock _ cid _ => cid
  | .sLUnlock _ cid => cid
  | .sLExtendLock _ _ cid => cid
  | .sLqGet _ cid _ => cid
  | .sLqLock _ _ _ _ cid => cid
  | .sLqExtendLock _ _ cid => cid
  | .sLqConsume _ _ cid => cid
  | .sLqUnlock _ cid => cid

/-- Dispatch of a script invocation on one node. -/
def runScript (rand : Int → Int → Int) : Script → NodeState → NodeState × SRes
  | .sLLock p cid e, s => l_lock s p cid e
  | .sLUnlock p cid, s => l_unlock s p cid
  | .sLExtendLock p e cid, s => l_extend_lock s p e cid
  | .sLqGet q cid e, s => lq_get s q cid e
  | .sLqLock hk q e r cid, s => lq_lock rand s hk q e r cid
  | .sLqExtendLock hk e cid, s => lq_extend_lock s hk e cid
  | .sLqConsume hk q cid, s => lq_consume s hk q cid
  | .sLqUnlock hk cid, s => lq_unlock s hk cid

/-- Client identities are the decimal rendering of a non-negative
random integer: a non-empty all-digit string. -/
def DecimalString (s : String) : Prop :=
  s.data ≠ [] ∧ ∀ ch ∈ s.data, ch.isDigit = true

instance : DecidablePred DecimalString := fun s => by
  unfold DecimalString; infer_instance

/-- C5 (the code diverges from the claim): on a node with no key at
the path, l_unlock returns 0, not 1, and leaves the node state
unchanged.  Redis converts the nil reply of GET on a missing key into
the Lua boolean false, so the rv == nil branch of the script can never
fire and the script falls through to return 0. -/
theorem C5_l_unlock_absent_key_returns_zero (s : NodeState) (path client_id : String)
    (habs : s.kv path = none) :
    l_unlock s path client_id = (s, SRes.int 0) := by
  unfold l_unlock getCmd getResultIsNil
  rw [habs]
  simp

theorem C5_l_unlock_absent_key_returns_zero_witness :
    emptyState.kv "some/path" = none ∧
    l_unlock emptyState "some/path" "123456789" = (emptyState, SRes.int 0) :=
  ⟨rfl, C5_l_unlock_absent_key_returns_zero emptyState "some/path" "123456789" rfl⟩

theorem digitChar_ne_colon (d : Nat) : digitChar d ≠ ':' := by
  unfold digitChar
  rcases Nat.lt_or_ge d 10 with h | h
  · interval_cases d <;> decide
  · rw [List.getD_eq_default _ _ (by simpa using h)]
    decide

theorem natDecAux_no_colon : ∀ (fuel n : Nat), ':' ∉ natDecAux n fuel := by
  intro fuel
  induction fuel with
  | zero => intro n; simp [natDecAux]
  | succ f ih =>
    intro n
    unfold natDecAux
    split
    · intro hmem
      exact digitChar_ne_colon n (List.mem_singleton.mp hmem).symm
    · intro hmem
      rcases List.mem_append.mp hmem with h1 | h1
      · exact ih (n / 10) h1
      · exact digitChar_ne_colon (n % 10) (List.mem_singleton.mp h1).symm

theorem natDecimal_no_colon (n : Nat) : ':' ∉ (natDecimal n).data := by
  simpa [natDecimal] using natDecAux_no_colon (n + 1) n

theorem intDecimal_no_colon (p : Int) : ':' ∉ (intDecimal p).data := by
  cases p with
  | ofNat n => simpa [intDecimal] using natDecimal_no_colon n
  | negSucc n =>
    intro hmem
    rw [intDecimal, String.data_append] at hmem
    rcases List.mem_append.mp hmem with h1 | h1
    · simp at h1
    · exact natDecimal_no_colon (n + 1) h1

theorem formatTime_no_colon (usec : Nat) : ':' ∉ (formatTime usec).data := by
  intro hmem
  rw [formatTime, String.data_append, String.data_append] at hmem
  rcases List.mem_append.mp hmem with h1 | h1
  · rcases List.mem_append.mp h1 with h2 | h2
    · exact natDecimal_no_colon _ h2
    · simp at h2
  · exact natDecAux_no_colon _ _ (by simpa [pad6] using h1)

theorem splitColon2_first (a b : List Char) (h : ':' ∉ a) :
    (a ++ ':' :: b).takeWhile (fun ch => ch ≠ ':') = a ∧
    (a ++ ':' :: b).dropWhile (fun ch => ch ≠ ':') = ':' :: b := by
  induction a with
  | nil => simp [List.takeWhile, List.dropWhile]
  | cons c t ih =>
    have hc : c ≠ ':' := fun hcc => h (hcc ▸ List.mem_cons_self c t)
    have ht : ':' ∉ t := fun hmem => h (List.mem_cons_of_mem c hmem)
    rcases ih ht with ⟨h1, h2⟩
    constructor
    · simpa [List.takeWhile, hc] using h1
    · simpa [List.dropWhile, hc] using h2

/-- C9: the handle put builds is the priority, the insertion time and
the item joined by colons, and the split on only the first two colons
that get performs recovers the item byte for byte, embedded colons
included; get then returns that item paired with the handle. -/
theorem C9_put_get_roundtrip (priority : Int) (usec : Nat) (item : String) :
    pySplitColon2 (put_handle priority usec item)
      = [intDecimal priority, formatTime usec, item] ∧
    get_unpack (put_handle priority usec item)
      = some (item, put_handle priority usec item) := by
  have hdata : (put_handle priority usec item).data
      = (intDecimal priority).data ++ ':' :: ((formatTime usec).data ++ ':' :: item.data) := by
    simp [put_handle, String.data_append]
  have h1 := splitColon2_first (intDecimal priority).data
    ((formatTime usec).data ++ ':' :: item.data) (intDecimal_no_colon priority)
  have h2 := splitColon2_first (formatTime usec).data item.data (formatTime_no_colon usec)
  have hsplit : splitColon2 (put_handle priority usec item).data
      = [(intDecimal priority).data, (formatTime usec).data, item.data] := by
    rw [hdata]
    simp only [splitColon2, h1.1, h1.2, h2.1, h2.2]
  have hmk : ∀ s : String, String.mk s.data = s := fun s => rfl
  constructor
  · rw [pySplitColon2, hsplit]
    simp [hmk]
  · rw [get_unpack, pySplitColon2, hsplit]
    simp [hmk]

theorem DecimalString.ne_completed {s : String} (h : DecimalString s) :
    s ≠ "completed" := by
  intro he
  subst he
  exact absurd (h.2 'c' (by decide)) (by decide)

theorem ne_of_kv_none {s : NodeState} {k h_k : String} (hk : s.kv k = none)
    (hs : s.kv h_k = some "completed") : k ≠ h_k := by
  intro he
  rw [he, hs] at hk
  cases hk

theorem l_lock_frame (s : NodeState) (p cid : String) (e : ℚ) (h_k : String)
    (hs : s.kv h_k = some "completed") :
    (l_lock s p cid e).1.kv h_k = some "completed" ∧
    (l_lock s p cid e).1.expiry h_k = s.expiry h_k := by
  rcases hp : s.kv p with _ | v
  · have hne : h_k ≠ p := (ne_of_kv_none hp hs).symm
    simp [l_lock, setnxCmd, expireatCmd, NodeState.kvSet, NodeState.exSet, hp, hne, hs]
  · simp [l_lock, setnxCmd, hp, hs]

theorem l_unlock_frame (s : NodeState) (p cid : String) (h_k : String)
    (hcid : cid ≠ "completed") (hs : s.kv h_k = some "completed") :
    (l_unlock s p cid).1.kv h_k = some "completed" ∧
    (l_unlock s p cid).1.expiry h_k = s.expiry h_k := by
  rcases hp : s.kv p with _ | v
  · simp [l_unlock, getCmd, getResultIsNil, hp, hs]
  · by_cases hv : v = cid
    · subst hv
      have hne : h_k ≠ p := by
        intro he
        rw [he, hp] at hs
        exact hcid (Option.some.inj hs)
      simp [l_unlock, getCmd, delCmd, NodeState.kvDel, hp, hne, hs]
    · simp [l_unlock, getCmd, getResultIsNil, hp, hs, hv]

theorem l_extend_lock_frame (s : NodeState) (p : String) (e : ℚ) (cid : String)
    (h_k : String) (hcid : cid ≠ "completed") (hs : s.kv h_k = some "completed") :
    (l_extend_lock s p e cid).1.kv h_k = some "completed" ∧
    (l_extend_lock s p e cid).1.expiry h_k = s.expiry h_k := by
  by_cases hc : some cid = getCmd s p
  · have hne : h_k ≠ p := by
      intro he
      rw [getCmd, ← he, hs] at hc
      exact hcid (Option.some.inj hc)
    rcases hp : s.kv p with _ | v
    · simp [l_extend_lock, expireatCmd, getCmd, hp, hs, hc]
    · simp [l_extend_lock, expireatCmd, NodeState.exSet, getCmd, hp, hs, hc, hne]
  · simp [l_extend_lock, hc, hs]

theorem lq_get_frame (s : NodeState) (Q cid : String) (e : ℚ) (h_k : String)
    (hs : s.kv h_k = some "completed") :
    (lq_get s Q cid e).1.kv h_k = some "completed" ∧
    (lq_get s Q cid e).1.expiry h_k = s.expiry h_k := by
  rcases hz : zminList (s.zset Q) with _ | hp
  · simp [lq_get, hz, hs]
  · rcases hk : s.kv hp.1 with _ | v
    · have hne : h_k ≠ hp.1 := (ne_of_kv_none hk hs).symm
      simp [lq_get, setnxCmd, expireatCmd, zincrbyCmd, NodeState.kvSet, NodeState.exSet,
        NodeState.zsetSet, hz, hk, hne, hs]
    · simp [lq_get, setnxCmd, hz, hk, hs]

theorem lq_lock_frame (rand : Int → Int → Int) (s : NodeState) (hk Q : String)
    (e : ℚ) (r : Int) (cid : String) (h_k : String)
    (hs : s.kv h_k = some "completed") :
    (lq_lock rand s hk Q e r cid).1.kv h_k = some "completed" ∧
    (lq_lock rand s hk Q e r cid).1.expiry h_k = s.expiry h_k := by
  rcases hkv : s.kv hk with _ | v
  · have hne : h_k ≠ hk := (ne_of_kv_none hkv hs).symm
    simp [lq_lock, setnxCmd, expireatCmd, zincrbyCmd, NodeState.kvSet, NodeState.exSet,
      NodeState.zsetSet, hkv, hne, hs]
  · by_cases hv : v = "completed"
    · subst hv
      simp [lq_lock, setnxCmd, getCmd, zremCmd, NodeState.zsetSet, hkv, hs]
    · rcases hsc : zscoreList (s.zset Q) hk with _ | score
      · simp [lq_lock, setnxCmd, getCmd, hkv, hs, hv, hsc]
      · by_cases hnum : rand r (⌊score⌋ + 1) ≠ 1
        · simp [lq_lock, setnxCmd, getCmd, zincrbyCmd, NodeState.zsetSet, hkv, hs, hv,
            hsc, hnum]
        · simp [lq_lock, setnxCmd, getCmd, hkv, hs, hv, hsc, hnum]

theorem lq_extend_lock_frame (s : NodeState) (hk : String) (e : ℚ) (cid : String)
    (h_k : String) (hcid : cid ≠ "completed") (hs : s.kv h_k = some "completed") :
    (lq_extend_lock s hk e cid).1.kv h_k = some "completed" ∧
    (lq_extend_lock s hk e cid).1.expiry h_k = s.expiry h_k := by
  by_cases hc : some cid = getCmd s hk
  · have hne : h_k ≠ hk := by
      intro he
      rw [getCmd, ← he, hs] at hc
      exact hcid (Option.some.inj hc)
    rcases hkv : s.kv hk with _ | v
    · simp [lq_extend_lock, expireatCmd, getCmd, hkv, hs, hc]
    · simp [lq_extend_lock, expireatCmd, NodeState.exSet, getCmd, hkv, hs, hc, hne]
  · by_cases hcomp : getCmd s hk = some "completed"
    · simp [lq_extend_lock, hcomp, hcid, hs]
    · simp [lq_extend_lock, hc, hcomp, hs]

theorem lq_consume_frame (s : NodeState) (hk Q cid : String) (h_k : String)
    (hs : s.kv h_k = some "completed") :
    (lq_consume s hk Q cid).1.kv h_k = some "completed" ∧
    ((lq_consume s hk Q cid).1.expiry h_k = s.expiry h_k ∨
      (lq_consume s hk Q cid).1.expiry h_k = none) ∧
    (hk = h_k → (lq_consume s hk Q cid).1.expiry h_k = none) := by
  by_cases hcond : getCmd s hk = some cid ∨ getCmd s hk = some "completed"
  · by_cases hne : hk = h_k
    · subst hne
      simp [lq_consume, hcond, setCmd, persistCmd, zremCmd, NodeState.kvSet,
        NodeState.exSet, NodeState.zsetSet]
    · have hne2 : h_k ≠ hk := fun he => hne he.symm
      simp [lq_consume, hcond, setCmd, persistCmd, zremCmd, NodeState.kvSet,
        NodeState.exSet, NodeState.zsetSet, hne, hne2, hs]
  · have hne : hk ≠ h_k := by
      intro he
      rw [getCmd, he, hs] at hcond
      exact hcond (Or.inr rfl)
    simp [lq_consume, hcond, hs, hne]

theorem lq_unlock_frame (s : NodeState) (hk cid : String) (h_k : String)
    (hcid : cid ≠ "completed") (hs : s.kv h_k = some "completed") :
    (lq_unlock s hk cid).1.kv h_k = some "completed" ∧
    (lq_unlock s hk cid).1.expiry h_k = s.expiry h_k := by
  by_cases hc : some cid = getCmd s hk
  · have hne : h_k ≠ hk := by
      intro he
      rw [getCmd, ← he, hs] at hc
      exact hcid (Option.some.inj hc)
    rcases hkv : s.kv hk with _ | v
    · simp [lq_unlock, delCmd, getCmd, hkv, hc, hs]
    · simp [lq_unlock, delCmd, NodeState.kvDel, getCmd, hkv, hc, hs, hne]
  · simp [lq_unlock, hc, hs]

/-- C2: once a node stores the completed tombstone at a handle, no
execution of any registry script by any client (whose identity is the
decimal rendering of a non-negative integer, hence never the string
completed) changes that value, deletes it, or attaches an expiry; an
lq_consume against the handle re-asserts the tombstone and leaves it
with no expiry. -/
theorem C2_completed_tombstone_monotone (rand : Int → Int → Int) (sc : Script)
    (s : NodeState) (h_k : String) (hcid : DecimalString sc.cid)
    (hs : s.kv h_k = some "completed") :
    (runScript rand sc s).1.kv h_k = some "completed" ∧
    ((runScript rand sc s).1.expiry h_k = s.expiry h_k ∨
      (runScript rand sc s).1.expiry h_k = none) ∧
    (∀ Q0 cid0, sc = Script.sLqConsume h_k Q0 cid0 →
      (runScript rand sc s).1.expiry h_k = none) := by
  have hne := hcid.ne_completed
  cases sc with
  | sLLock p cid e =>
    rcases l_lock_frame s p cid e h_k hs with ⟨h1, h2⟩
    exact ⟨h1, Or.inl h2, fun Q0 cid0 he => Script.noConfusion he⟩
  | sLUnlock p cid =>
    rcases l_unlock_frame s p cid h_k hne hs with ⟨h1, h2⟩
    exact ⟨h1, Or.inl h2, fun Q0 cid0 he => Script.noConfusion he⟩
  | sLExtendLock p e cid =>
    rcases l_extend_lock_frame s p e cid h_k hne hs with ⟨h1, h2⟩
    exact ⟨h1, Or.inl h2, fun Q0 cid0 he => Script.noConfusion he⟩
  | sLqGet Q cid e =>
    rcases lq_get_frame s Q cid e h_k hs with ⟨h1, h2⟩
    exact ⟨h1, Or.inl h2, fun Q0 cid0 he => Script.noConfusion he⟩
  | sLqLock hk Q e r cid =>
    rcases lq_lock_frame rand s hk Q e r cid h_k hs with ⟨h1, h2⟩
    exact ⟨h1, Or.inl h2, fun Q0 cid0 he => Script.noConfusion he⟩
  | sLqExtendLock hk e cid =>
    rcases lq_extend_lock_frame s hk e cid h_k hne hs with ⟨h1, h2⟩
    exact ⟨h1, Or.inl h2, fun Q0 cid0 he => Script.noConfusion he⟩
  | sLqConsume hk Q cid =>
    rcases lq_consume_frame s hk Q cid h_k hs with ⟨h1, h2, h3⟩
    refine ⟨h1, h2, fun Q0 cid0 he => ?_⟩
    have : hk = h_k := by
      injection he
    exact h3 this
  | sLqUnlock hk cid =>
    rcases lq_unlock_frame s hk cid h_k hne hs with ⟨h1, h2⟩
    exact ⟨h1, Or.inl h2, fun Q0 cid0 he => Script.noConfusion he⟩

/-- A node keyspace holding only the completed tombstone at one
handle, for exercising the tombstone invariant. -/
def tombState : NodeState :=
  { emptyState with kv := fun k => if k = "item" then some "completed" else none }

theorem C2_completed_tombstone_monotone_witness :
    DecimalString (Script.sLqUnlock "item" "42").cid ∧
    tombState.kv "item" = some "completed" ∧
    ((runScript (fun _ _ => 1) (Script.sLqUnlock "item" "42") tombState).1.kv "item"
        = some "completed" ∧
      ((runScript (fun _ _ => 1) (Script.sLqUnlock "item" "42") tombState).1.expiry "item"
          = tombState.expiry "item" ∨
        (runScript (fun _ _ => 1) (Script.sLqUnlock "item" "42") tombState).1.expiry "item"
          = none) ∧
      (∀ Q0 cid0, Script.sLqUnlock "item" "42" = Script.sLqConsume "item" Q0 cid0 →
        (runScript (fun _ _ => 1) (Script.sLqUnlock "item" "42") tombState).1.expiry "item"
          = none)) :=
  ⟨by decide, rfl,
    C2_completed_tombstone_monotone (fun _ _ => 1) (Script.sLqUnlock "item" "42")
      tombState "item" (by decide) rfl⟩

theorem countOnes_cons (i : Nat) (r : PyRes) (t : List (Nat × PyRes)) :
    countOnes ((i, r) :: t) = (if r = PyRes.int 1 then 1 else 0) + countOnes t := by
  simp only [countOnes, List.filter_cons]
  split
  · simp_all
    omega
  · simp_all

theorem sumNonExc_cons (i : Nat) (r : PyRes) (t : List (Nat × PyRes)) :
    sumNonExc ((i, r) :: t)
      = (match r with | PyRes.int n => n | _ => 0) + sumNonExc t := by
  simp only [sumNonExc, List.filterMap_cons]
  cases r <;> simp

theorem lq_consume_resp (h_k Q cid : String) (n : Node) :
    (applyScript (fun s => lq_consume s h_k Q cid) n).2 = PyRes.int 1 ∨
    (applyScript (fun s => lq_consume s h_k Q cid) n).2 = PyRes.int 0 ∨
    (applyScript (fun s => lq_consume s h_k Q cid) n).2 = PyRes.exc "connection error" := by
  unfold applyScript
  by_cases hr : n.reachable
  · by_cases hcond : getCmd n.st h_k = some cid ∨ getCmd n.st h_k = some "completed"
    · simp [lq_consume, hr, hcond, SRes.toPy]
    · simp [lq_consume, hr, hcond, SRes.toPy]
  · simp [hr]

theorem consume_sum_eq_count (h_k Q cid : String) (nodes : List Node) :
    sumNonExc (fanout (fun s => lq_consume s h_k Q cid) nodes).2
      = (countOnes (fanout (fun s => lq_consume s h_k Q cid) nodes).2 : Int) := by
  induction nodes with
  | nil => simp [fanout, sumNonExc, countOnes]
  | cons n t ih =>
    have hfan : (fanout (fun s => lq_consume s h_k Q cid) (n :: t)).2
        = (n.nid, (applyScript (fun s => lq_consume s h_k Q cid) n).2)
          :: (fanout (fun s => lq_consume s h_k Q cid) t).2 := by
      simp [fanout]
    rw [hfan, sumNonExc_cons, countOnes_cons]
    rcases lq_consume_resp h_k Q cid n with h | h | h <;>
      (rw [h]; simp [ih])

/-- C8: consume raises the consume error exactly when the count of
non-error responses equal to 1 from the lq_consume fan-out is zero,
and with at least one success returns one hundred times the success
count over the ensemble size without raising. -/
theorem C8_consume_error_iff_zero (c : Cfg) (Q h_k : String) (nodes : List Node) :
    ((LockingQueue.consume c Q h_k nodes).1
        = Except.error "Failed to mark the item as completed on any redis server"
      ↔ countOnes (fanout (fun s => lq_consume s h_k Q c.client_id) nodes).2 = 0) ∧
    (countOnes (fanout (fun s => lq_consume s h_k Q c.client_id) nodes).2 ≠ 0 →
      (LockingQueue.consume c Q h_k nodes).1
        = Except.ok
            (100 * (countOnes (fanout (fun s => lq_consume s h_k Q c.client_id) nodes).2 : ℚ)
              / (c.n_servers : ℚ))) := by
  have hsum := consume_sum_eq_count h_k Q c.client_id nodes
  by_cases hz : countOnes (fanout (fun s => lq_consume s h_k Q c.client_id) nodes).2 = 0
  · have : sumNonExc (fanout (fun s => lq_consume s h_k Q c.client_id) nodes).2 = 0 := by
      rw [hsum, hz]; rfl
    constructor
    · simp [LockingQueue.consume, this, hz]
    · intro hne; exact absurd hz hne
  · have hsz : sumNonExc (fanout (fun s => lq_consume s h_k Q c.client_id) nodes).2 ≠ 0 := by
      rw [hsum]
      exact_mod_cast hz
    constructor
    · constructor
      · intro h
        simp [LockingQueue.consume, hsz] at h
      · intro h; exact absurd h hz
    · intro _
      simp only [LockingQueue.consume, hsz, if_neg hsz]
      rw [hsum]
      push_cast
      rfl

/-- Shared concrete configuration: client id 7, timeout 5, polling
interval 1, no clock drift, a single-node ensemble. -/
def cfg1 : Cfg :=
  { client_id := "7", timeout := 5, polling_interval := 1, clock_drift := 0, n_servers := 1 }

/-- A reachable single node whose keyspace holds the caller's client
id at the handle named job. -/
def ownedNode : Node :=
  { nid := 0,
    st := { emptyState with kv := fun k => if k = "job" then some "7" else none },
    reachable := true }

theorem C8_consume_error_iff_zero_witness :
    countOnes (fanout (fun s => lq_consume s "job" "Q" cfg1.client_id) [ownedNode]).2 = 1 ∧
    (((LockingQueue.consume cfg1 "Q" "job" [ownedNode]).1
        = Except.error "Failed to mark the item as completed on any redis server"
      ↔ countOnes (fanout (fun s => lq_consume s "job" "Q" cfg1.client_id) [ownedNode]).2 = 0) ∧
    (countOnes (fanout (fun s => lq_consume s "job" "Q" cfg1.client_id) [ownedNode]).2 ≠ 0 →
      (LockingQueue.consume cfg1 "Q" "job" [ownedNode]).1
        = Except.ok
            (100 * (countOnes (fanout (fun s => lq_consume s "job" "Q" cfg1.client_id) [ownedNode]).2 : ℚ)
              / (cfg1.n_servers : ℚ)))) :=
  ⟨by decide, C8_consume_error_iff_zero cfg1 "Q" "job" [ownedNode]⟩

/-- The first fan-out round of LockingQueue.extend_lock: the
lq_extend_lock outcomes, in completion order. -/
def lqExtendResponses (c : Cfg) (h_k : String) (nodes : List Node) (t0 : ℚ) :
    List (Nat × PyRes) :=
  (fanout (fun s => lq_extend_lock s h_k (get_expireat c.timeout t0).2 c.client_id) nodes).2

/-- C7: queue extend_lock returns the -1 sentinel when some node
reports already completed, after running lq_consume on every node that
did not so report; with no completed report it returns 0 below the
majority of 1 responses, and the lock_still_valid verdict otherwise. -/
theorem C7_queue_extend_lock_cases (c : Cfg) (Q h_k : String) (nodes : List Node)
    (t0 t1 : ℚ) :
    (anyCompleted (lqExtendResponses c h_k nodes t0) = true →
      (LockingQueue.extend_lock c Q h_k nodes t0 t1).1 = LQExtRet.completedRet ∧
      ∀ p ∈ lqExtendResponses c h_k nodes t0, p.2.toStr ≠ "already completed" →
        (ScriptName.lqConsume, p.1) ∈ (LockingQueue.extend_lock c Q h_k nodes t0 t1).2.2) ∧
    (anyCompleted (lqExtendResponses c h_k nodes t0) = false →
      (countOnes (lqExtendResponses c h_k nodes t0) < c.majority →
        (LockingQueue.extend_lock c Q h_k nodes t0 t1).1 = LQExtRet.zeroRet) ∧
      (c.majority ≤ countOnes (lqExtendResponses c h_k nodes t0) →
        (LockingQueue.extend_lock c Q h_k nodes t0 t1).1
          = LQExtRet.validRet
              (lock_still_valid (get_expireat c.timeout t0).2 c.clock_drift
                c.polling_interval t1))) := by
  constructor
  · intro hany
    have hred : LockingQueue.extend_lock c Q h_k nodes t0 t1
        = (LQExtRet.completedRet,
           fanoutOn
             (((lqExtendResponses c h_k nodes t0).filter
                 (fun p => decide (p.2.toStr ≠ "already completed"))).map (fun p => p.1))
             (fun s => lq_consume s h_k Q c.client_id)
             (fanout (fun s => lq_extend_lock s h_k (get_expireat c.timeout t0).2 c.client_id) nodes).1,
           (((lqExtendResponses c h_k nodes t0).filter
               (fun p => decide (p.2.toStr ≠ "already completed"))).map (fun p => p.1)).map
             (fun i => (ScriptName.lqConsume, i))) := by
      simp only [LockingQueue.extend_lock, LockingQueue.verify_not_completed,
        lqExtendResponses] at *
      rw [if_pos hany]
    refine ⟨by rw [hred], ?_⟩
    intro p hp hne
    rw [hred]
    exact List.mem_map.mpr
      ⟨p.1, List.mem_map.mpr ⟨p, List.mem_filter.mpr ⟨hp, decide_eq_true hne⟩, rfl⟩, rfl⟩
  · intro hany
    have hver : LockingQueue.verify_not_completed c Q h_k (lqExtendResponses c h_k nodes t0)
        (fanout (fun s => lq_extend_lock s h_k (get_expireat c.timeout t0).2 c.client_id) nodes).1
        = (true,
           (fanout (fun s => lq_extend_lock s h_k (get_expireat c.timeout t0).2 c.client_id) nodes).1,
           []) := by
      simp only [LockingQueue.verify_not_completed]
      rw [if_neg (by simp [hany])]
    constructor
    · intro hlt
      simp only [LockingQueue.extend_lock, lqExtendResponses] at *
      rw [hver]
      simp only [LockingQueue.have_majority]
      rw [if_pos hlt]
    · intro hge
      simp only [LockingQueue.extend_lock, lqExtendResponses] at *
      rw [hver]
      simp only [LockingQueue.have_majority]
      rw [if_neg (Nat.not_lt.mpr hge)]

/-- A reachable node holding the completed tombstone at the handle
named item. -/
def tombNode : Node := { nid := 0, st := tombState, reachable := true }

theorem C7_queue_extend_lock_cases_witness :
    anyCompleted (lqExtendResponses cfg1 "item" [tombNode] 0) = true ∧
    ((LockingQueue.extend_lock cfg1 "Q" "item" [tombNode] 0 0).1 = LQExtRet.completedRet ∧
      ∀ p ∈ lqExtendResponses cfg1 "item" [tombNode] 0,
        p.2.toStr ≠ "already completed" →
          (ScriptName.lqConsume, p.1)
            ∈ (LockingQueue.extend_lock cfg1 "Q" "item" [tombNode] 0 0).2.2) :=
  ⟨by decide, (C7_queue_extend_lock_cases cfg1 "Q" "item" [tombNode] 0 0).1 (by decide)⟩

theorem l_lock_granted (path cid : String) (e : ℚ) (n : Node)
    (h : (applyScript (fun s => l_lock s path cid e) n).2 = PyRes.int 1) :
    (applyScript (fun s => l_lock s path cid e) n).1.st.kv path = some cid ∧
    (applyScript (fun s => l_lock s path cid e) n).1.st.expiry path = some e := by
  by_cases hr : n.reachable
  · rcases hp : n.st.kv path with _ | v
    · simp [applyScript, l_lock, setnxCmd, expireatCmd, NodeState.kvSet, NodeState.exSet,
        hr, hp]
    · simp [applyScript, l_lock, setnxCmd, SRes.toPy, hr, hp] at h
  · simp [applyScript, hr] at h

/-- C10: when the l_lock fan-out reaches the majority threshold but
lock_still_valid fails, Lock.lock returns False having performed only
the l_lock round: no unlock is invoked, the node states are exactly
the post-fan-out states, and every node that granted the lock still
stores the caller's client id at the path, with the expiry set by the
script. -/
theorem C10_lock_invalid_frame (c : Cfg) (path : String) (extend : Bool)
    (nodes : List Node) (t0 t1 : ℚ)
    (hmaj : c.majority ≤ countOnes
      (fanout (fun s => l_lock s path c.client_id (get_expireat c.timeout t0).2) nodes).2)
    (hvalid : lock_still_valid (get_expireat c.timeout t0).2 c.clock_drift
      c.polling_interval t1 = false) :
    Lock.lock c path extend nodes t0 t1
      = (LockRet.falseRet,
         (fanout (fun s => l_lock s path c.client_id (get_expireat c.timeout t0).2) nodes).1,
         [ScriptName.lLock]) ∧
    ∀ n ∈ nodes,
      (applyScript (fun s => l_lock s path c.client_id (get_expireat c.timeout t0).2) n).2
          = PyRes.int 1 →
        (applyScript (fun s => l_lock s path c.client_id (get_expireat c.timeout t0).2) n).1.st.kv
            path = some c.client_id ∧
        (applyScript (fun s => l_lock s path c.client_id (get_expireat c.timeout t0).2) n).1.st.expiry
            path = some (get_expireat c.timeout t0).2 := by
  constructor
  · simp only [Lock.lock]
    rw [if_neg (Nat.not_lt.mpr hmaj), if_pos hvalid]
  · intro n _ h
    exact l_lock_granted path c.client_id (get_expireat c.timeout t0).2 n h

/-- Shared concrete configuration: client id 7, timeout 5, polling
interval 1, no clock drift, a three-node ensemble. -/
def cfg3 : Cfg :=
  { client_id := "7", timeout := 5, polling_interval := 1, clock_drift := 0, n_servers := 3 }

/-- A reachable node with an empty keyspace. -/
def freeNode (i : Nat) : Node := { nid := i, st := emptyState, reachable := true }

theorem C10_lock_invalid_frame_witness :
    Lock.lock cfg3 "p" false [freeNode 0, freeNode 1, freeNode 2] 0 100
      = (LockRet.falseRet,
         (fanout (fun s => l_lock s "p" cfg3.client_id (get_expireat cfg3.timeout 0).2)
           [freeNode 0, freeNode 1, freeNode 2]).1,
         [ScriptName.lLock]) ∧
    ∀ n ∈ [freeNode 0, freeNode 1, freeNode 2],
      (applyScript (fun s => l_lock s "p" cfg3.client_id (get_expireat cfg3.timeout 0).2) n).2
          = PyRes.int 1 →
        (applyScript (fun s => l_lock s "p" cfg3.client_id (get_expireat cfg3.timeout 0).2) n).1.st.kv
            "p" = some cfg3.client_id ∧
        (applyScript (fun s => l_lock s "p" cfg3.client_id (get_expireat cfg3.timeout 0).2) n).1.st.expiry
            "p" = some (get_expireat cfg3.timeout 0).2 :=
  C10_lock_invalid_frame cfg3 "p" false [freeNode 0, freeNode 1, freeNode 2] 0 100
    (by decide)
    (by norm_num [lock_still_valid, get_expireat, cfg3])

/-- C1 (the code diverges from the claim): with a full set of
successful l_lock responses, a passing lock_still_valid check and
extend false, Lock.lock falls off the end of the function and returns
None rather than t_expireat. -/
theorem C1_lock_without_extend_returns_none :
    countOnes (fanout (fun s => l_lock s "p" cfg3.client_id (get_expireat cfg3.timeout 0).2)
        [freeNode 0, freeNode 1, freeNode 2]).2 = 3 ∧
    cfg3.majority = 2 ∧
    lock_still_valid (get_expireat cfg3.timeout 0).2 cfg3.clock_drift cfg3.polling_interval 0
      = true ∧
    (Lock.lock cfg3 "p" false [freeNode 0, freeNode 1, freeNode 2] 0 0).1 = LockRet.noneRet := by
  have hcnt : countOnes (fanout (fun s => l_lock s "p" cfg3.client_id (get_expireat cfg3.timeout 0).2)
      [freeNode 0, freeNode 1, freeNode 2]).2 = 3 := by decide
  have hlsv : lock_still_valid (get_expireat cfg3.timeout 0).2 cfg3.clock_drift
      cfg3.polling_interval 0 = true := by
    norm_num [lock_still_valid, get_expireat, cfg3]
  refine ⟨hcnt, by decide, hlsv, ?_⟩
  simp only [Lock.lock]
  rw [hcnt]
  rw [if_neg (by decide), if_neg (by rw [hlsv]; decide)]
  rfl

/-- C6 counterexample: a run of Lock.extend_lock in which the
majority of l_extend_lock responses equal 1 and yet no l_lock round is
performed, because the lock_still_valid check fails; the claim that
the re-lock is unconditional upon majority is false on this input. -/
theorem C6_relock_conditional_cex :
    cfg1.majority ≤ countOnes
      (fanout (fun s => l_extend_lock s "job" (get_expireat cfg1.timeout 0).2 cfg1.client_id)
        [ownedNode]).2 ∧
    (Lock.extend_lock cfg1 "job" [ownedNode] 0 100 100).2.2 = [ScriptName.lExtendLock] ∧
    ScriptName.lLock ∉ (Lock.extend_lock cfg1 "job" [ownedNode] 0 100 100).2.2 ∧
    (Lock.extend_lock cfg1 "job" [ownedNode] 0 100 100).1 = false := by
  have hcnt : countOnes
      (fanout (fun s => l_extend_lock s "job" (get_expireat cfg1.timeout 0).2 cfg1.client_id)
        [ownedNode]).2 = 1 := by decide
  have hlsv : lock_still_valid (get_expireat cfg1.timeout 0).2 cfg1.clock_drift
      cfg1.polling_interval 100 = false := by
    norm_num [lock_still_valid, get_expireat, cfg1]
  have hdrv : Lock.extend_lock cfg1 "job" [ownedNode] 0 100 100
      = (lock_still_valid (get_expireat cfg1.timeout 0).2 cfg1.clock_drift
           cfg1.polling_interval 100,
         (fanout (fun s => l_extend_lock s "job" (get_expireat cfg1.timeout 0).2 cfg1.client_id)
           [ownedNode]).1,
         [ScriptName.lExtendLock]) := by
    simp only [Lock.extend_lock]
    rw [hcnt]
    rw [if_neg (by decide), if_neg (by rw [hlsv]; decide)]
  refine ⟨by rw [hcnt]; decide, by rw [hdrv], by rw [hdrv]; decide, by rw [hdrv, hlsv]⟩

/-- C6 amended: below the majority threshold extend_lock returns
failure having performed only the l_extend_lock round; upon majority
it returns the verdict of the second lock_still_valid check, and the
l_lock re-acquisition round runs exactly when the first
lock_still_valid check passes, not unconditionally. -/
theorem C6_extend_lock_amended (c : Cfg) (path : String) (nodes : List Node)
    (t0 t1 t2 : ℚ) :
    (countOnes (fanout (fun s => l_extend_lock s path (get_expireat c.timeout t0).2 c.client_id)
        nodes).2 < c.majority →
      Lock.extend_lock c path nodes t0 t1 t2
        = (false,
           (fanout (fun s => l_extend_lock s path (get_expireat c.timeout t0).2 c.client_id)
             nodes).1,
           [ScriptName.lExtendLock])) ∧
    (c.majority ≤ countOnes
        (fanout (fun s => l_extend_lock s path (get_expireat c.timeout t0).2 c.client_id)
          nodes).2 →
      (Lock.extend_lock c path nodes t0 t1 t2).1
          = lock_still_valid (get_expireat c.timeout t0).2 c.clock_drift c.polling_interval t2 ∧
      (Lock.extend_lock c path nodes t0 t1 t2).2.2
          = if lock_still_valid (get_expireat c.timeout t0).2 c.clock_drift c.polling_interval t1
            then [ScriptName.lExtendLock, ScriptName.lLock]
            else [ScriptName.lExtendLock]) := by
  constructor
  · intro hlt
    simp only [Lock.extend_lock]
    rw [if_pos hlt]
  · intro hge
    by_cases hv : lock_still_valid (get_expireat c.timeout t0).2 c.clock_drift
        c.polling_interval t1 = true
    · have hdrv : Lock.extend_lock c path nodes t0 t1 t2
          = (lock_still_valid (get_expireat c.timeout t0).2 c.clock_drift c.polling_interval t2,
             (fanout (fun s => l_lock s path c.client_id (get_expireat c.timeout t0).2)
               (fanout (fun s => l_extend_lock s path (get_expireat c.timeout t0).2 c.client_id)
                 nodes).1).1,
             [ScriptName.lExtendLock, ScriptName.lLock]) := by
        simp only [Lock.extend_lock]
        rw [if_neg (Nat.not_lt.mpr hge), if_pos hv]
      rw [hdrv, hv]
      exact ⟨rfl, rfl⟩
    · have hdrv : Lock.extend_lock c path nodes t0 t1 t2
          = (lock_still_valid (get_expireat c.timeout t0).2 c.clock_drift c.polling_interval t2,
             (fanout (fun s => l_extend_lock s path (get_expireat c.timeout t0).2 c.client_id)
               nodes).1,
             [ScriptName.lExtendLock]) := by
        simp only [Lock.extend_lock]
        rw [if_neg (Nat.not_lt.mpr hge), if_neg hv]
      rw [hdrv, if_neg hv]
      exact ⟨rfl, rfl⟩

theorem C6_extend_lock_amended_witness :
    (Lock.extend_lock cfg1 "job" [ownedNode] 0 0 0).1
        = lock_still_valid (get_expireat cfg1.timeout 0).2 cfg1.clock_drift
            cfg1.polling_interval 0 ∧
    (Lock.extend_lock cfg1 "job" [ownedNode] 0 0 0).2.2
        = if lock_still_valid (get_expireat cfg1.timeout 0).2 cfg1.clock_drift
              cfg1.polling_interval 0
          then [ScriptName.lExtendLock, ScriptName.lLock]
          else [ScriptName.lExtendLock] :=
  (C6_extend_lock_amended cfg1 "job" [ownedNode] 0 0 0).2 (by decide)

theorem zscore_zincr (l : List (String × ℚ)) (m : String) (d sc : ℚ)
    (h : zscoreList l m = some sc) :
    zscoreList (zincrList l m d) m = some (sc + d) := by
  induction l with
  | nil => simp [zscoreList] at h
  | cons p t ih =>
    by_cases hp : p.1 = m
    · have hv : p.2 = sc := by
        simp [zscoreList, List.find?, hp] at h
        exact h
      subst hv
      simp [zscoreList, zincrList, List.find?, hp]
    · have ht : zscoreList t m = some sc := by
        simpa [zscoreList, List.find?, hp] using h
      have := ih ht
      simpa [zscoreList, zincrList, List.find?, hp] using this

/-- A deterministic stand-in for the seeded PRNG that always draws 2. -/
def rand2 : Int → Int → Int := fun _ _ => 2

/-- A node keyspace where the handle item is locked by another client
and queued in Q with score 1. -/
def contended : NodeState :=
  { kv := fun k => if k = "item" then some "9" else none,
    expiry := fun _ => none,
    zset := fun q => if q = "Q" then [("item", 1)] else [] }

/-- C4 counterexample: with the stored score 1 and the drawn num 2
(inside the range one to floor of the score plus one), the ZINCRBY of
lq_lock leaves the score at 1 + (2-1)/1 = 2, whereas the claim says
the score becomes old times (num-1)/score, which is 1; the script does
signal already locked. -/
theorem C4_score_decay_cex :
    (1 : Int) ≤ rand2 0 (⌊(1 : ℚ)⌋ + 1) ∧
    rand2 0 (⌊(1 : ℚ)⌋ + 1) ≤ ⌊(1 : ℚ)⌋ + 1 ∧
    rand2 0 (⌊(1 : ℚ)⌋ + 1) ≠ 1 ∧
    zscoreList ((lq_lock rand2 contended "item" "Q" 10 0 "7").1.zset "Q") "item" = some 2 ∧
    (2 : ℚ) ≠ 1 * (((rand2 0 (⌊(1 : ℚ)⌋ + 1) : ℚ) - 1) / 1) ∧
    (lq_lock rand2 contended "item" "Q" 10 0 "7").2 = SRes.err "already locked" := by
  have hstate : lq_lock rand2 contended "item" "Q" 10 0 "7"
      = (zincrbyCmd contended "Q" 1 "item", SRes.err "already locked") := by
    norm_num [lq_lock, setnxCmd, getCmd, contended, rand2, zscoreList, List.find?]
    exact fun h => absurd h (by decide)
  refine ⟨by norm_num [rand2], by norm_num [rand2], by norm_num [rand2], ?_,
    by norm_num [rand2], ?_⟩
  · rw [hstate]
    norm_num [zincrbyCmd, NodeState.zsetSet, zincrList, zscoreList, List.find?, contended]
  · rw [hstate]

/-- C4 amended: when lq_lock fails its SETNX against a value other
than the tombstone, it draws num from the modelled PRNG bounded by
floor of the score plus one and signals already locked; with num equal
to 1 the node state is untouched, and otherwise ZINCRBY increments the
score by (num-1)/score, leaving it at score + (num-1)/score rather
than at score times (num-1)/score. -/
theorem C4_score_decay_amended (rand : Int → Int → Int) (s : NodeState)
    (h_k Q : String) (e : ℚ) (randint : Int) (cid v : String) (sc : ℚ)
    (hv : s.kv h_k = some v) (hnc : v ≠ "completed")
    (hsc : zscoreList (s.zset Q) h_k = some sc)
    (_hlo : 1 ≤ rand randint (⌊sc⌋ + 1)) (_hhi : rand randint (⌊sc⌋ + 1) ≤ ⌊sc⌋ + 1) :
    (lq_lock rand s h_k Q e randint cid).2 = SRes.err "already locked" ∧
    (rand randint (⌊sc⌋ + 1) = 1 → (lq_lock rand s h_k Q e randint cid).1 = s) ∧
    (rand randint (⌊sc⌋ + 1) ≠ 1 →
      zscoreList ((lq_lock rand s h_k Q e randint cid).1.zset Q) h_k
        = some (sc + ((rand randint (⌊sc⌋ + 1) : ℚ) - 1) / sc)) := by
  by_cases hnum : rand randint (⌊sc⌋ + 1) = 1
  · have hdrv : lq_lock rand s h_k Q e randint cid = (s, SRes.err "already locked") := by
      simp [lq_lock, setnxCmd, getCmd, hv, hnc, hsc, hnum]
    exact ⟨by rw [hdrv], fun _ => by rw [hdrv], fun hne => absurd hnum hne⟩
  · have hdrv : lq_lock rand s h_k Q e randint cid
        = (zincrbyCmd s Q (((rand randint (⌊sc⌋ + 1) : ℚ) - 1) / sc) h_k,
           SRes.err "already locked") := by
      simp [lq_lock, setnxCmd, getCmd, hv, hnc, hsc, hnum]
    refine ⟨by rw [hdrv], fun he => absurd he hnum, fun _ => ?_⟩
    rw [hdrv]
    simp only [zincrbyCmd, NodeState.zsetSet]
    simpa using zscore_zincr (s.zset Q) h_k _ sc hsc

theorem C4_score_decay_amended_witness :
    (lq_lock rand2 contended "item" "Q" 10 0 "7").2 = SRes.err "already locked" ∧
    (rand2 0 (⌊(1 : ℚ)⌋ + 1) = 1 → (lq_lock rand2 contended "item" "Q" 10 0 "7").1 = contended) ∧
    (rand2 0 (⌊(1 : ℚ)⌋ + 1) ≠ 1 →
      zscoreList ((lq_lock rand2 contended "item" "Q" 10 0 "7").1.zset "Q") "item"
        = some (1 + ((rand2 0 (⌊(1 : ℚ)⌋ + 1) : ℚ) - 1) / 1)) :=
  C4_score_decay_amended rand2 contended "item" "Q" 10 0 "7" "9" 1 rfl (by decide) rfl
    (by simp [rand2]) (by simp [rand2, Int.floor_one])

theorem applyScript_nid (f : NodeState → NodeState × SRes) (n : Node) :
    (applyScript f n).1.nid = n.nid := by
  by_cases hr : n.reachable
  · rcases hf : f n.st with ⟨s1, r⟩
    simp [applyScript, hr, hf]
  · simp [applyScript, hr]

theorem applyScript_reachable (f : NodeState → NodeState × SRes) (n : Node) :
    (applyScript f n).1.reachable = n.reachable := by
  by_cases hr : n.reachable
  · rcases hf : f n.st with ⟨s1, r⟩
    simp [applyScript, hr, hf]
  · simp [applyScript, hr]

theorem applyScript_st (f : NodeState → NodeState × SRes) (n : Node)
    (hr : n.reachable = true) : (applyScript f n).1.st = (f n.st).1 := by
  rcases hf : f n.st with ⟨s1, r⟩
  simp [applyScript, hr, hf]

theorem fanout_resp_ids (f : NodeState → NodeState × SRes) (nodes : List Node) :
    ((fanout f nodes).2).map (fun p => p.1) = nodes.map Node.nid := by
  simp [fanout, List.map_map]

theorem fanout_node_ids (f : NodeState → NodeState × SRes) (nodes : List Node) :
    ((fanout f nodes).1).map Node.nid = nodes.map Node.nid := by
  simp only [fanout, List.map_map]
  exact List.map_congr_left (fun n _ => applyScript_nid f n)

theorem scanGet_decomp (i : Nat) (r : PyRes) (rest : List Nat) :
    ∀ (rs : List (Nat × PyRes)) (f : List Nat),
      scanGet rs = (f, some (i, r), rest) → rs.map (fun p => p.1) = f ++ i :: rest := by
  intro rs
  induction rs with
  | nil =>
    intro f h
    simp [scanGet] at h
  | cons p t ih =>
    intro f h
    obtain ⟨j, q⟩ := p
    cases q with
    | exc m =>
      rcases hs : scanGet t with ⟨f0, w0, rest0⟩
      rw [scanGet, hs] at h
      simp only [Prod.mk.injEq] at h
      obtain ⟨h1, h2, h3⟩ := h
      subst h1
      have := ih f0 (by rw [hs, h2, h3])
      simpa using this
    | int k =>
      rw [scanGet] at h
      simp only [Prod.mk.injEq, Option.some.injEq] at h
      obtain ⟨h1, h2, h3⟩ := h
      rw [← h1, ← h2.1, ← h3]
      simp
    | str v =>
      rw [scanGet] at h
      simp only [Prod.mk.injEq, Option.some.injEq] at h
      obtain ⟨h1, h2, h3⟩ := h
      rw [← h1, ← h2.1, ← h3]
      simp

theorem lq_unlock_post (s : NodeState) (hk cid : String) :
    (lq_unlock s hk cid).1.kv hk ≠ some cid := by
  by_cases hc : some cid = getCmd s hk
  · rcases hp : s.kv hk with _ | v
    · rw [getCmd, hp] at hc
      cases hc
    · simp [lq_unlock, ← hc, delCmd, NodeState.kvDel, hp]
  · simp only [lq_unlock, if_neg hc]
    exact fun h => hc h.symm

/-- C3 amended: when _get_candidate_keys selects a winner, every other
queried node is issued an lq_unlock carrying the winner handle, and
afterwards no reachable non-winner node stores the caller client id at
the winner handle; a non-winner whose own lq_get locked a different
handle keeps that speculative lock, since the unlock only names the
winner handle. -/
theorem C3_unlock_with_winner_handle (c : Cfg) (Q : String) (texp : ℚ)
    (nodes : List Node) (wid : Nat) (whk : String)
    (hwin : (LockingQueue.get_candidate_keys c Q texp nodes).1 = some (wid, whk)) :
    (∀ i ∈ nodes.map Node.nid, i ≠ wid →
      (ScriptName.lqUnlock, i, whk)
        ∈ (LockingQueue.get_candidate_keys c Q texp nodes).2.2) ∧
    (∀ n ∈ (LockingQueue.get_candidate_keys c Q texp nodes).2.1,
      n.reachable = true → n.nid ≠ wid → n.st.kv whk ≠ some c.client_id) := by
  rcases hscan : scanGet (fanout (fun s => lq_get s Q c.client_id texp) nodes).2
    with ⟨failed, w, rest⟩
  cases w with
  | none =>
    have hnone : (LockingQueue.get_candidate_keys c Q texp nodes).1 = none := by
      simp only [LockingQueue.get_candidate_keys, hscan]
    rw [hnone] at hwin
    cases hwin
  | some p =>
    obtain ⟨i, r⟩ := p
    have hdrv : LockingQueue.get_candidate_keys c Q texp nodes
        = (some (i, r.toStr),
           fanoutOn (rest ++ failed) (fun s => lq_unlock s r.toStr c.client_id)
             (fanout (fun s => lq_get s Q c.client_id texp) nodes).1,
           (rest ++ failed).map (fun j => (ScriptName.lqUnlock, j, r.toStr))) := by
      simp only [LockingQueue.get_candidate_keys, hscan]
    rw [hdrv] at hwin
    simp only [Option.some.injEq, Prod.mk.injEq] at hwin
    obtain ⟨hwid, hwhk⟩ := hwin
    subst hwid
    subst hwhk
    have hids : nodes.map Node.nid = failed ++ i :: rest := by
      rw [← fanout_resp_ids (fun s => lq_get s Q c.client_id texp) nodes]
      exact scanGet_decomp i r rest _ failed hscan
    constructor
    · intro j hj hne
      rw [hdrv]
      have hmem : j ∈ rest ++ failed := by
        rw [hids] at hj
        rcases List.mem_append.mp hj with h1 | h1
        · exact List.mem_append.mpr (Or.inr h1)
        · rcases List.mem_cons.mp h1 with h2 | h2
          · exact absurd h2 hne
          · exact List.mem_append.mpr (Or.inl h2)
      exact List.mem_map.mpr ⟨j, hmem, rfl⟩
    · intro n hn hreach hne
      rw [hdrv] at hn
      simp only [fanoutOn, List.mem_map] at hn
      obtain ⟨m, hm, he⟩ := hn
      by_cases hc : (rest ++ failed).contains m.nid
      · rw [if_pos hc] at he
        subst he
        have hmr : m.reachable = true := by
          rw [← applyScript_reachable (fun s => lq_unlock s r.toStr c.client_id) m]
          exact hreach
        rw [applyScript_st (fun s => lq_unlock s r.toStr c.client_id) m hmr]
        exact lq_unlock_post m.st r.toStr c.client_id
      · rw [if_neg hc] at he
        subst he
        exfalso
        have hmmem : m.nid ∈ nodes.map Node.nid := by
          rw [← fanout_node_ids (fun s => lq_get s Q c.client_id texp) nodes]
          exact List.mem_map.mpr ⟨m, hm, rfl⟩
        have hnott : m.nid ∉ rest ++ failed := by simpa using hc
        rw [hids] at hmmem
        rcases List.mem_append.mp hmmem with h1 | h1
        · exact hnott (List.mem_append.mpr (Or.inr h1))
        · rcases List.mem_cons.mp h1 with h2 | h2
          · exact hne h2
          · exact hnott (List.mem_append.mpr (Or.inl h2))

/-- A reachable node whose queue holds one candidate handle. -/
def qNodeA : Node :=
  { nid := 0,
    st := { emptyState with
            zset := fun q => if q = "Q" then [("1:1.000000:a", 0)] else [] },
    reachable := true }

/-- A second reachable node whose queue head is a different handle. -/
def qNodeB : Node :=
  { nid := 1,
    st := { emptyState with
            zset := fun q => if q = "Q" then [("1:0.500000:b", 0)] else [] },
    reachable := true }

/-- C3 counterexample: both queried nodes succeed at lq_get; the first
response wins with its own handle, the other node is unlocked with the
winner handle only, and so it still stores the caller client id at its
own, different, candidate handle: a speculative lock survives on a
non-winner node. -/
theorem C3_nonwinner_keeps_speculative_lock_cex :
    (LockingQueue.get_candidate_keys cfg1 "Q" 10 [qNodeA, qNodeB]).1
        = some (0, "1:1.000000:a") ∧
    ((LockingQueue.get_candidate_keys cfg1 "Q" 10 [qNodeA, qNodeB]).2.1.get? 1).map
        (fun n => (n.nid, n.reachable, n.st.kv "1:0.500000:b"))
      = some (1, true, some "7") ∧
    ("1:0.500000:b" : String) ≠ "1:1.000000:a" := by
  refine ⟨by decide, by decide, by decide⟩

theorem C3_unlock_with_winner_handle_witness :
    (∀ i ∈ [qNodeA, qNodeB].map Node.nid, i ≠ 0 →
      (ScriptName.lqUnlock, i, "1:1.000000:a")
        ∈ (LockingQueue.get_candidate_keys cfg1 "Q" 10 [qNodeA, qNodeB]).2.2) ∧
    (∀ n ∈ (LockingQueue.get_candidate_keys cfg1 "Q" 10 [qNodeA, qNodeB]).2.1,
      n.reachable = true → n.nid ≠ 0 → n.st.kv "1:1.000000:a" ≠ some cfg1.client_id) :=
  C3_unlock_with_winner_handle cfg1 "Q" 10 [qNodeA, qNodeB] 0 "1:1.000000:a" (by decide)

end MajorityRedis
